import Mathlib

/-!
Shallow embedding of the globocom/httpclient wrapper (Go) and proofs about it.

The embedding follows the Go sources:
  httpclient.go  : option application, callback-chain composition (chainCallback,
                   noopCallback, the With* options)
  request.go     : Request.Execute (metrics-alias derivation, terminal action),
                   registerMetrics
  metrics.go     : Metrics interface, requestID context lookup
  response file  : Response value object, wrapResponse, Response.Cookie
  transport file : Transport.RoundTrip, Transport.setRequestIDHeader

Modelling conventions:
  - `*T` pointers that may be nil become `Option T`; Go `error` becomes `Option Err`.
  - A Go panic (the unchecked type assertion in requestID) is modelled by an
    `Option` result, `none` meaning the function panics.
  - time.Time / time.Duration become `Nat` instants and `Nat` durations
    (time.Since start = now - start, never negative on a monotonic clock).
  - Byte slices become `List UInt8`.
  - The Metrics interface is modelled by the trace of calls the reporter makes
    on it, as a list of `MetricEvent`s.
-/

set_option autoImplicit false

/-- Errors. `circuitOpen` models the `goresilience` sentinel `ErrCircuitOpen`
(recognised by identity via `errors.Is`); every other error value is `other`. -/
inductive Err where
  | circuitOpen
  | other (msg : String)
  deriving DecidableEq

/-- `errors.Is(err, ErrCircuitOpen)` for the sentinel comparison in
`registerMetrics`. -/
def Err.isCircuitOpen : Err → Bool
  | .circuitOpen => true
  | .other _ => false

/-- HTTP cookie; only the fields the repository reads (`Name`, `Value`). -/
structure Cookie where
  name : String
  value : String
  deriving DecidableEq

/-- `net/http.Header`: a map from canonical header keys to value lists,
modelled as an association list. -/
abbrev Header := List (String × List String)

/-- `net/textproto` valid header-field byte: ASCII letters, digits and the
token characters (codes for the characters in the set
! # $ % ampersand apostrophe * + - . caret underscore backquote bar tilde). -/
def validHeaderFieldChar (c : Char) : Bool :=
  (c.isAlpha || c.isDigit) ||
  ([33, 35, 36, 37, 38, 39, 42, 43, 45, 46, 94, 95, 96, 124, 126].contains c.toNat)

/-- One pass of `textproto.canonicalMIMEHeaderKey`: uppercase the first letter
and every letter that follows a hyphen, lowercase every other letter. -/
def canonChars : Bool → List Char → List Char
  | _, [] => []
  | upper, c :: rest =>
    let d := if upper then c.toUpper else c.toLower
    d :: canonChars (d = '-') rest

/-- `textproto.CanonicalMIMEHeaderKey`: keys holding a byte that is not a
valid header-field byte are returned unchanged; otherwise the key is
canonicalised. -/
def canonicalMIMEHeaderKey (s : String) : String :=
  if s.toList.all validHeaderFieldChar then String.mk (canonChars true s.toList) else s

/-- `http.Header.Get` / `textproto.MIMEHeader.Get`: canonicalise the key,
return the first stored value, or the empty string when absent. -/
def Header.get (h : Header) (key : String) : String :=
  match List.find? (fun p => p.1 = canonicalMIMEHeaderKey key) h with
  | some p => p.2.headD ""
  | none => ""

/-- `http.Header.Add` / `textproto.MIMEHeader.Add`: canonicalise the key and
append the value to that key's value list. -/
def Header.addCanon : Header → String → String → Header
  | [], ck, v => [(ck, [v])]
  | (k, vs) :: rest, ck, v =>
    if k = ck then (k, vs ++ [v]) :: rest else (k, vs) :: Header.addCanon rest ck v

def Header.add (h : Header) (key value : String) : Header :=
  Header.addCanon h (canonicalMIMEHeaderKey key) value

/-- The wrapped `Response` value object (response file, lines 10-17).
The `request` back-reference field is represented by the only datum the
repository ever reads through it, the recorded start time already folded into
`responseTime`; keeping the full back-reference would make the structure
mutually recursive with the callback function type. -/
structure Response where
  statusCode : Nat
  body : List UInt8
  header : Header
  cookies : List Cookie
  responseTime : Nat
  deriving DecidableEq

/-- `Response.Cookie`: first cookie with the given name, nil (`none`) when
absent. -/
def Response.cookie (r : Response) (name : String) : Option Cookie :=
  List.find? (fun c => c.name = name) r.cookies

/-- Result of one call through the chain: `(*Response, error)`. -/
abbrev CallResult := Option Response × Option Err

/-- `Callback func(func() (*Response, error)) (*Response, error)`
(httpclient.go line 23). -/
def Callback := (Unit → CallResult) → CallResult

/-- `noopCallback` (httpclient.go lines 355-357): invokes the terminal action
directly. -/
def noopCallback : Callback := fun fn => fn ()

/-- `HTTPClient.chainCallback` (httpclient.go lines 64-77). The Go receiver
field `callbackChain` is a function value that could in principle be nil, so
the previous chain is an `Option`; `newClient` initialises it to
`noopCallback`, keeping it forever `some`. -/
def chainCallback (previousCallback : Option Callback) (newCallback : Callback) :
    Option Callback :=
  match previousCallback with
  | none => some newCallback
  | some prev => some (fun fn => newCallback (fun _ => prev fn))

/-- The chain a client holds after registering `cs` in order, starting from
`newClient`'s initial `noopCallback` (httpclient.go lines 46-57). -/
def clientChain (cs : List Callback) : Option Callback :=
  List.foldl chainCallback (some noopCallback) cs

/-- The nesting claimed by the spec: the head of the list is the outermost
layer, each callback gets a thunk running the rest, the terminal action is
innermost. -/
def nestOuterFirst : List Callback → (Unit → CallResult) → CallResult
  | [], fn => fn ()
  | c :: rest, fn => c (fun _ => nestOuterFirst rest fn)

/-- The composed chain is always a real function and runs the registered
callbacks with the last-registered one outermost. -/
theorem clientChain_spec (cs : List Callback) :
    ∃ g, clientChain cs = some g ∧ ∀ fn, g fn = nestOuterFirst cs.reverse fn := by
  induction cs using List.reverseRecOn with
  | nil => exact ⟨noopCallback, rfl, fun fn => rfl⟩
  | append_singleton cs c ih =>
    obtain ⟨g, hg, hfn⟩ := ih
    refine ⟨fun fn => c (fun _ => g fn), ?_, ?_⟩
    · unfold clientChain at hg ⊢
      rw [List.foldl_append, hg]
      rfl
    · intro fn
      rw [List.reverse_append]
      show c (fun _ => g fn) = c (fun _ => nestOuterFirst cs.reverse fn)
      congr 1
      funext u
      exact hfn fn

/-- C1: the composed callback chain built by registering `c1, ..., cn` in
order runs as the nesting in which the last-registered callback is the
outermost layer, each callback receiving a thunk invoking the rest of the
chain with the terminal action `fn` innermost; the empty chain is the
identity and invokes `fn` directly. -/
theorem callback_chain_last_registered_outermost
    (cs : List Callback) (c : Callback) (fn : Unit → CallResult) :
    (clientChain cs = some c → c fn = nestOuterFirst cs.reverse fn) ∧
    noopCallback fn = fn () := by
  refine ⟨fun h => ?_, rfl⟩
  obtain ⟨g, hg, hfn⟩ := clientChain_spec cs
  rw [hg] at h
  cases h
  exact hfn fn

/-- A callback that short-circuits without calling the rest of the chain. -/
def cbConst : Callback := fun _ => (none, some (Err.other "cb"))

/-- A callback that just runs the rest of the chain. -/
def cbPass : Callback := fun fn => fn ()

/-- The function value `clientChain [cbPass, cbConst]` evaluates to. -/
def chainPC : Callback := fun fn => cbConst (fun _ => cbPass (fun _ => noopCallback fn))

/-- A concrete terminal action. -/
def fnTest : Unit → CallResult := fun _ => (none, none)

theorem callback_chain_last_registered_outermost_witness :
    chainPC fnTest = nestOuterFirst [cbConst, cbPass] fnTest :=
  (callback_chain_last_registered_outermost [cbPass, cbConst] chainPC fnTest).1 rfl

/-! ## Go `path.Clean` / `path.Join` (used by `Request.Execute` for the alias) -/

/-- Split a character list on the slash character. -/
def splitSegsAux : List Char → List Char → List String
  | cur, [] => [String.mk cur.reverse]
  | cur, c :: rest =>
    if c = '/' then String.mk cur.reverse :: splitSegsAux [] rest
    else splitSegsAux (c :: cur) rest

def splitSegs (s : String) : List String := splitSegsAux [] s.toList

/-- One step of Go `path.Clean` over already-split segments, accumulating the
kept segments in reverse: empty and dot segments are dropped; a dotdot
segment pops the previous segment, except that at the root it is dropped and
in a relative path it accumulates at the front. -/
def cleanStep (rooted : Bool) (acc : List String) (seg : String) : List String :=
  if seg = "" || seg = "." then acc
  else if seg = ".." then
    match acc with
    | [] => if rooted then [] else [".."]
    | top :: rest => if top = ".." then seg :: acc else rest
  else seg :: acc

/-- Join segments back with slashes. -/
def joinSegs : List String → String
  | [] => ""
  | [s] => s
  | s :: rest => s ++ "/" ++ joinSegs rest

/-- Go `path.Clean`: shortest equivalent path (collapse repeated slashes,
drop dot segments, resolve dotdot segments, drop any trailing slash; empty
input cleans to a dot, a cleaned-away relative path is a dot). -/
def pathClean (p : String) : String :=
  if p = "" then "."
  else
    let rooted : Bool := match p.toList with
      | c :: _ => c = '/'
      | [] => false
    let segs := ((splitSegs p).foldl (cleanStep rooted) []).reverse
    let joined := joinSegs segs
    if rooted then "/" ++ joined
    else if joined = "" then "." else joined

/-- Go `path.Join` restricted to two elements, as called by `Request.Execute`:
concatenate the non-empty elements with a slash and clean the result; all
elements empty gives the empty string. -/
def pathJoin (a b : String) : String :=
  if a = "" && b = "" then ""
  else if a = "" then pathClean b
  else pathClean (a ++ "/" ++ b)

/-- `strings.Replace(s, ".", "-", -1)`: replace every dot with a hyphen. -/
def replaceDots (s : String) : String :=
  String.mk (s.toList.map (fun c => if c = '.' then '-' else c))

/-- The slice of `net/url.URL` the repository reads: `Hostname()` (host with
any port and brackets stripped, as computed by the standard library). -/
structure URL where
  hostname : String
  deriving DecidableEq

/-- Metrics-alias computation of `Request.Execute` (request.go lines 122-131):
start from the raw url; an explicit alias wins; otherwise with a configured
host URL the alias is `method ++ dot ++ path.Join(hostname, url)`; finally
every dot is replaced with a hyphen. -/
def metricsAlias (aliasStr : String) (hostURL : Option URL) (method url : String) :
    String :=
  let base :=
    if aliasStr.length > 0 then aliasStr
    else
      match hostURL with
      | some hu => method ++ "." ++ pathJoin hu.hostname url
      | none => url
  replaceDots base

/-- The alias exactly as the claim words it: the literal interpolation
`<method>.<hostname>/<url>` (dots then replaced by hyphens), with the
explicit-alias and no-host cases unchanged. Used only to compare the claim
with the source computation. -/
def metricsAliasSpec (aliasStr : String) (hostURL : Option URL) (method url : String) :
    String :=
  let base :=
    if aliasStr.length > 0 then aliasStr
    else
      match hostURL with
      | some hu => method ++ "." ++ hu.hostname ++ "/" ++ url
      | none => url
  replaceDots base

/-- C2 counterexample: at the claim's own example input (host URL
`http://host.example`, no explicit alias, method GET, url `/path`) the source
computes the alias through Go `path.Join`, yielding `GET-host-example/path`,
while the claim's general template `<method>.<hostname>/<url>` interpolates to
`GET.host.example//path`, i.e. `GET-host-example//path` after dot
replacement; the two differ, so the claimed template does not describe the
computed alias for every call. -/
theorem metrics_alias_template_counterexample :
    metricsAlias "" (some { hostname := "host.example" }) "GET" "/path"
        = "GET-host-example/path" ∧
    metricsAliasSpec "" (some { hostname := "host.example" }) "GET" "/path"
        = "GET-host-example//path" ∧
    metricsAlias "" (some { hostname := "host.example" }) "GET" "/path"
        ≠ metricsAliasSpec "" (some { hostname := "host.example" }) "GET" "/path" :=
  ⟨rfl, rfl, by decide⟩

/-- C2 amended: the metrics alias is the explicit alias if one was set;
otherwise, with a configured host URL, the string
`<method>.<path.Join(hostname, url)>` where `path.Join` joins with a single
slash and cleans the path (it equals `<hostname>/<url>` only when `url` is
already a clean relative path); otherwise the raw url — and in every case
dots are replaced by hyphens. With host `host.example`, method GET and url
`/path` the alias is `GET-host-example/path`. -/
theorem metrics_alias_derivation
    (aliasStr method url : String) (hu : URL) (hostURL : Option URL) :
    (aliasStr.length > 0 →
      metricsAlias aliasStr hostURL method url = replaceDots aliasStr) ∧
    metricsAlias "" (some hu) method url
      = replaceDots (method ++ "." ++ pathJoin hu.hostname url) ∧
    metricsAlias "" none method url = replaceDots url ∧
    metricsAlias "" (some { hostname := "host.example" }) "GET" "/path"
      = "GET-host-example/path" := by
  refine ⟨fun h => ?_, rfl, rfl, rfl⟩
  unfold metricsAlias
  rw [if_pos h]

theorem metrics_alias_derivation_witness :
    metricsAlias "x.y" (some { hostname := "h" }) "GET" "/p" = "x-y" := by
  have h := (metrics_alias_derivation "x.y" "GET" "/p" { hostname := "h" }
    (some { hostname := "h" })).1 (by decide)
  exact h.trans rfl

/-! ## Metrics reporting (`registerMetrics`, request.go lines 147-172) -/

/-- An opaque configured metrics sink (any non-nil `Metrics` value). -/
structure MetricsSink where
  id : Nat
  deriving DecidableEq

/-- One call the asynchronous reporter makes on the `Metrics` interface
(metrics.go lines 3-10). The `PushToSeries` value is the response time
(`float64` seconds in the source, a duration here). -/
inductive MetricEvent where
  | pushToSeries (name : String) (value : Nat)
  | incrCounter (name : String)
  | incrCounterWithAttrs (name : String) (attributes : List (String × String))
  deriving DecidableEq

def MetricEvent.isPush : MetricEvent → Bool
  | .pushToSeries _ _ => true
  | _ => false

/-- The exact sequence of calls the reporter goroutine makes for one
completed call (request.go lines 151-168): with a response, the timing
sample, then with a nonzero status the status counter and the status
attribute; with an error, the circuit-open or generic error counter; always
the total counter carrying the collected attributes. -/
def registerMetricsEvents (key : String) (resp : Option Response)
    (err : Option Err) : List MetricEvent :=
  let respPart : List MetricEvent × List (String × String) :=
    match resp with
    | none => ([], [])
    | some r =>
      if r.statusCode ≠ 0 then
        ([MetricEvent.pushToSeries (key ++ ".response_time") r.responseTime,
          MetricEvent.incrCounter (key ++ ".status." ++ toString r.statusCode)],
         [("status", toString r.statusCode)])
      else
        ([MetricEvent.pushToSeries (key ++ ".response_time") r.responseTime], [])
  respPart.1 ++
    (match err with
     | none => []
     | some e =>
       if e.isCircuitOpen then [MetricEvent.incrCounter (key ++ ".circuit_open")]
       else [MetricEvent.incrCounter (key ++ ".errors")]) ++
    [MetricEvent.incrCounterWithAttrs (key ++ ".total") respPart.2]

/-- `registerMetrics` (request.go lines 147-172): run the wrapped computation,
return its pair unchanged, and — only when a sink is configured — emit the
reporting events (asynchronously in the source; the trace is the model). -/
def registerMetrics (key : String) (metrics : Option MetricsSink)
    (f : Unit → CallResult) : CallResult × List MetricEvent :=
  let r := f ()
  match metrics with
  | none => (r, [])
  | some _ => (r, registerMetricsEvents key r.1 r.2)

/-! ## Request execution (`Request.Execute`, request.go lines 122-145) -/

/-- The slice of `resty.Response` the repository reads (StatusCode, Header,
Body, Cookies). -/
structure RawResponse where
  statusCode : Nat
  header : Header
  body : List UInt8
  cookies : List Cookie
  deriving DecidableEq

/-- The data fields of `Request` (request.go lines 15-22) used by the pure
data flow of `Execute`: the explicit alias (Go field `alias`), the client's
parsed host URL and the recorded start time. The resty request, the copied
callback chain and the metrics sink are passed explicitly where needed. -/
structure RequestModel where
  aliasStr : String
  hostURL : Option URL
  startTime : Nat
  deriving DecidableEq

/-- `wrapResponse` (response file lines 59-68): copy status, headers, body
and cookies from the raw resty response and record
`time.Since(request.startTime)` at construction time `now`. -/
def wrapResponse (request : RequestModel) (restyResponse : RawResponse)
    (now : Nat) : Response :=
  { statusCode := restyResponse.statusCode
    header := restyResponse.header
    body := restyResponse.body
    cookies := restyResponse.cookies
    responseTime := now - request.startTime }

/-- The terminal action closure built inside `Execute` (request.go lines
134-141): record the start instant `callStart`, run the underlying resty
call (outcome `raw`/`err`, finishing at instant `now`); with no response
object propagate `(nil, err)` without constructing a `Response`, otherwise
wrap the raw result and return it alongside whatever error was produced. -/
def executeTerminal (r : RequestModel) (callStart : Nat)
    (raw : Option RawResponse) (err : Option Err) (now : Nat) : CallResult :=
  match raw with
  | none => (none, err)
  | some rr => (some (wrapResponse { r with startTime := callStart } rr now), err)

/-- `Request.Execute` (request.go lines 122-145): derive the metrics alias,
run the callback chain with the terminal action innermost, and hand the
result to `registerMetrics` under the derived key. -/
def execute (r : RequestModel) (chain : Callback) (metrics : Option MetricsSink)
    (method url : String) (callStart : Nat) (raw : Option RawResponse)
    (err : Option Err) (now : Nat) : CallResult × List MetricEvent :=
  let key := metricsAlias r.aliasStr r.hostURL method url
  registerMetrics key metrics
    (fun _ => chain (fun _ => executeTerminal r callStart raw err now))

/-- C5: the terminal action returns `(nil, err)` without constructing a
`Response` exactly when the underlying call yields no response object;
otherwise it returns the wrapped response alongside whatever error the
underlying call produced; and through `Execute` with the identity chain the
connection-level failure surfaces to the caller as `(nil, err)`. -/
theorem terminal_action_error_taxonomy
    (r : RequestModel) (m : Option MetricsSink) (method url : String)
    (callStart now : Nat) (err : Option Err) (rr : RawResponse) :
    executeTerminal r callStart none err now = (none, err) ∧
    executeTerminal r callStart (some rr) err now
      = (some (wrapResponse { r with startTime := callStart } rr now), err) ∧
    (execute r noopCallback m method url callStart none err now).1
      = (none, err) := by
  refine ⟨rfl, rfl, ?_⟩
  cases m <;> rfl

/-- C6: the pair `Execute` returns to the caller is exactly the pair the
callback chain produced: `registerMetrics` returns the wrapped computation's
result for every sink configuration, so metrics reporting never alters,
replaces or suppresses the caller's result. -/
theorem metrics_reporting_preserves_result
    (key : String) (m : Option MetricsSink) (f : Unit → CallResult)
    (r : RequestModel) (chain : Callback) (method url : String)
    (callStart now : Nat) (raw : Option RawResponse) (err : Option Err) :
    (registerMetrics key m f).1 = f () ∧
    (execute r chain m method url callStart raw err now).1
      = chain (fun _ => executeTerminal r callStart raw err now) := by
  constructor <;> cases m <;> rfl

/-- C3 counterexample: for a completed call with a configured sink whose
chain returned `(nil, err)` — a connection-level failure — the reporter
emits only the errors counter and the total counter; no
`<alias>.response_time` timing sample is emitted at all, contradicting the
claim that a timing sample is part of every completed call's emission. -/
theorem metrics_emission_counterexample :
    (registerMetrics "k" (some { id := 0 })
        (fun _ => (none, some (Err.other "boom")))).2
      = [MetricEvent.incrCounter "k.errors",
         MetricEvent.incrCounterWithAttrs "k.total" []] ∧
    ((registerMetrics "k" (some { id := 0 })
        (fun _ => (none, some (Err.other "boom")))).2.all
      (fun e => !e.isPush)) = true :=
  ⟨rfl, rfl⟩

/-- C3 amended: with no sink nothing is emitted; with a configured sink the
reporter emits exactly, in order: a `<alias>.response_time` timing sample
when (and only when) the chain produced a response; additionally the
`<alias>.status.<code>` counter and a `status` attribute when that
response's status is nonzero; the `<alias>.circuit_open` counter when the
error is the circuit-open sentinel or the `<alias>.errors` counter for any
other error; and always the `<alias>.total` counter carrying the collected
attributes. -/
theorem metrics_emission_exact
    (key : String) (f : Unit → CallResult)
    (s : MetricsSink) (r : Response) (e : Err) :
    (registerMetrics key none f).2 = [] ∧
    (registerMetrics key (some s) f).2
      = registerMetricsEvents key (f ()).1 (f ()).2 ∧
    registerMetricsEvents key none none
      = [MetricEvent.incrCounterWithAttrs (key ++ ".total") []] ∧
    (e.isCircuitOpen = true →
      registerMetricsEvents key none (some e)
        = [MetricEvent.incrCounter (key ++ ".circuit_open"),
           MetricEvent.incrCounterWithAttrs (key ++ ".total") []]) ∧
    (e.isCircuitOpen = false →
      registerMetricsEvents key none (some e)
        = [MetricEvent.incrCounter (key ++ ".errors"),
           MetricEvent.incrCounterWithAttrs (key ++ ".total") []]) ∧
    (r.statusCode = 0 →
      registerMetricsEvents key (some r) none
        = [MetricEvent.pushToSeries (key ++ ".response_time") r.responseTime,
           MetricEvent.incrCounterWithAttrs (key ++ ".total") []]) ∧
    (r.statusCode ≠ 0 →
      registerMetricsEvents key (some r) none
        = [MetricEvent.pushToSeries (key ++ ".response_time") r.responseTime,
           MetricEvent.incrCounter (key ++ ".status." ++ toString r.statusCode),
           MetricEvent.incrCounterWithAttrs (key ++ ".total")
             [("status", toString r.statusCode)]]) ∧
    (r.statusCode ≠ 0 →
      registerMetricsEvents key (some r) (some e)
        = [MetricEvent.pushToSeries (key ++ ".response_time") r.responseTime,
           MetricEvent.incrCounter (key ++ ".status." ++ toString r.statusCode)]
          ++ (if e.isCircuitOpen then
                [MetricEvent.incrCounter (key ++ ".circuit_open")]
              else [MetricEvent.incrCounter (key ++ ".errors")])
          ++ [MetricEvent.incrCounterWithAttrs (key ++ ".total")
               [("status", toString r.statusCode)]]) := by
  refine ⟨rfl, rfl, rfl, fun h => ?_, fun h => ?_, fun h => ?_, fun h => ?_,
    fun h => ?_⟩ <;>
    simp [registerMetricsEvents, h]

/-- A concrete successful response for the witnesses. -/
def respOK : Response :=
  { statusCode := 200
    body := [79, 75]
    header := [("Testheader", ["test"])]
    cookies := [{ name := "testCookie", value := "test" }]
    responseTime := 5 }

theorem metrics_emission_exact_witness :
    registerMetricsEvents "k" none (some Err.circuitOpen)
      = [MetricEvent.incrCounter "k.circuit_open",
         MetricEvent.incrCounterWithAttrs "k.total" []] ∧
    registerMetricsEvents "k" (some respOK) none
      = [MetricEvent.pushToSeries "k.response_time" 5,
         MetricEvent.incrCounter "k.status.200",
         MetricEvent.incrCounterWithAttrs "k.total" [("status", "200")]] := by
  have h := metrics_emission_exact "k" (fun _ => (none, none)) { id := 0 }
    respOK Err.circuitOpen
  exact ⟨h.2.2.2.1 rfl, h.2.2.2.2.2.2.1 (by decide)⟩

/-- The raw response of the spec's round-trip scenario: status 200, body
`OK`, header `Testheader: test` (stored under its canonical key), one cookie
`testCookie=test`. -/
def rawOK : RawResponse :=
  { statusCode := 200
    header := [("Testheader", ["test"])]
    body := [79, 75]
    cookies := [{ name := "testCookie", value := "test" }] }

/-- A concrete request model whose call started at instant 2. -/
def reqT : RequestModel := { aliasStr := "", hostURL := none, startTime := 2 }

/-- C8: the wrapped `Response` reflects the raw resty response exactly —
status, body bytes, headers, cookies are copied, the cookie-by-name lookup
returns the first raw cookie of that name, and the response time is the
elapsed time from the recorded start of the call to construction; on the
spec's round-trip scenario the header lookup is case-insensitive and the
cookie lookup finds `testCookie`. -/
theorem wrapped_response_reflects_raw
    (req : RequestModel) (rr : RawResponse) (now : Nat) (name : String) :
    (wrapResponse req rr now).statusCode = rr.statusCode ∧
    (wrapResponse req rr now).body = rr.body ∧
    (wrapResponse req rr now).header = rr.header ∧
    (wrapResponse req rr now).cookies = rr.cookies ∧
    (wrapResponse req rr now).responseTime = now - req.startTime ∧
    (wrapResponse req rr now).cookie name
      = List.find? (fun c => c.name = name) rr.cookies ∧
    (wrapResponse reqT rawOK 7).statusCode = 200 ∧
    (wrapResponse reqT rawOK 7).body = [79, 75] ∧
    Header.get (wrapResponse reqT rawOK 7).header "testheader" = "test" ∧
    Header.get (wrapResponse reqT rawOK 7).header "TESTHEADER" = "test" ∧
    Header.get (wrapResponse reqT rawOK 7).header "Testheader" = "test" ∧
    (wrapResponse reqT rawOK 7).cookie "testCookie"
      = some { name := "testCookie", value := "test" } ∧
    (wrapResponse reqT rawOK 7).responseTime = 5 := by
  exact ⟨rfl, rfl, rfl, rfl, rfl, rfl, rfl, rfl, by decide, by decide, by decide,
    rfl, rfl⟩

/-! ## Context, requestID (metrics.go) and Transport decoration -/

/-- A value stored in a `context.Context`: either a string or some other
dynamic value (index into anything that is not a string). -/
inductive CtxValue where
  | str (s : String)
  | nonString (id : Nat)
  deriving DecidableEq

/-- `context.Context` as the chain of key-value pairs visible from the
request's context; `Value` returns the innermost (first) binding. -/
abbrev Ctx := List (String × CtxValue)

def ctxValue (ctx : Ctx) (key : String) : Option CtxValue :=
  (List.find? (fun p => p.1 = key) ctx).map (fun p => p.2)

/-- `contextRequestIDKey` (metrics.go line 17). -/
def contextRequestIDKey : String := "request.id"

/-- `requestID` (metrics.go lines 20-27): empty string when no value is
stored under the key; otherwise the unchecked type assertion
`value.(string)` — `none` models the panic on a non-string value. -/
def requestID (ctx : Ctx) : Option String :=
  match ctxValue ctx contextRequestIDKey with
  | none => some ""
  | some (.str s) => some s
  | some (.nonString _) => none

/-- The slice of `http.Request` the transport touches: its context and its
headers. -/
structure HttpRequest where
  ctx : Ctx
  header : Header
  deriving DecidableEq

/-- An opaque `http.Response` produced by the wrapped round-tripper. -/
structure HttpResponse where
  id : Nat
  deriving DecidableEq

/-- `Transport.setRequestIDHeader` (transport file lines 26-32): look up the
request id in the context (a panic there propagates); an empty id is a
no-op; otherwise add an `X-Request-ID` header with that value. -/
def Transport.setRequestIDHeader (ctx : Ctx) (req : HttpRequest) :
    Option HttpRequest :=
  match requestID ctx with
  | none => none
  | some rID =>
    if rID = "" then some req
    else some { req with header := req.header.add "X-Request-ID" rID }

/-- `Transport.RoundTrip` (transport file lines 16-24): set the request-id
header from the request's context, delegate to the wrapped round-tripper
`rt`; on a non-nil error return `(nil, err)`, otherwise return the
delegate's pair. The outer `Option` is `none` when the header step panics. -/
def Transport.roundTrip (rt : HttpRequest → Option HttpResponse × Option Err)
    (req : HttpRequest) : Option (Option HttpResponse × Option Err) :=
  match Transport.setRequestIDHeader req.ctx req with
  | none => none
  | some req2 =>
    match rt req2 with
    | (resp, none) => some (resp, none)
    | (_, some e) => some (none, some e)

/-- The transformation `RoundTrip` applies to the delegate's pair: with an
error the response is dropped and `(nil, err)` returned, otherwise the pair
passes through. -/
def errNilNormalize : Option HttpResponse × Option Err →
    Option HttpResponse × Option Err
  | (resp, none) => (resp, none)
  | (_, some e) => (none, some e)

/-- A wrapped round-tripper returning both a response and an error. -/
def rtBoth : HttpRequest → Option HttpResponse × Option Err :=
  fun _ => (some { id := 1 }, some (Err.other "e"))

/-- A request whose context carries no request id. -/
def reqEmpty : HttpRequest := { ctx := [], header := [] }

/-- C4 counterexample: for a request whose context carries no request id the
headers are indeed left unchanged, but when the wrapped round-tripper
returns a non-nil response together with a non-nil error, `RoundTrip`
returns `(nil, err)` — the delegate's result is not passed through
unchanged. -/
theorem transport_passthrough_counterexample :
    Transport.setRequestIDHeader reqEmpty.ctx reqEmpty = some reqEmpty ∧
    rtBoth reqEmpty = (some { id := 1 }, some (Err.other "e")) ∧
    Transport.roundTrip rtBoth reqEmpty = some (none, some (Err.other "e")) ∧
    Transport.roundTrip rtBoth reqEmpty ≠ some (rtBoth reqEmpty) :=
  ⟨rfl, rfl, rfl, by decide⟩

/-- C4 amended: if the request's context carries no request-correlation
identifier (the lookup yields the empty string) the headers are left
unchanged and the delegate is called on the unmodified request; if it
carries a non-empty one, an `X-Request-ID` header with that value is added
first; in both cases the delegate's pair is returned after error
normalisation: a non-nil error yields `(nil, err)`, otherwise the delegate's
response passes through with a nil error. -/
theorem transport_roundtrip_decoration
    (rt : HttpRequest → Option HttpResponse × Option Err)
    (req : HttpRequest) (rID : String) :
    (requestID req.ctx = some "" →
      Transport.roundTrip rt req = some (errNilNormalize (rt req))) ∧
    (requestID req.ctx = some rID → rID ≠ "" →
      Transport.roundTrip rt req
        = some (errNilNormalize
            (rt { req with header := req.header.add "X-Request-ID" rID }))) := by
  constructor
  · intro h
    have hset : Transport.setRequestIDHeader req.ctx req = some req := by
      unfold Transport.setRequestIDHeader
      rw [h]
      exact if_pos rfl
    unfold Transport.roundTrip
    simp only [hset]
    cases hrt : rt req with
    | mk resp err =>
      cases err <;> simp [hrt, errNilNormalize]
  · intro h hne
    have hset : Transport.setRequestIDHeader req.ctx req
        = some { req with header := req.header.add "X-Request-ID" rID } := by
      unfold Transport.setRequestIDHeader
      rw [h]
      exact if_neg hne
    unfold Transport.roundTrip
    simp only [hset]
    cases hrt : rt { req with header := req.header.add "X-Request-ID" rID } with
    | mk resp err =>
      cases err <;> simp [hrt, errNilNormalize]

/-- A wrapped round-tripper that succeeds. -/
def rtOK : HttpRequest → Option HttpResponse × Option Err :=
  fun _ => (some { id := 0 }, none)

/-- A request whose context carries request id 42. -/
def reqID42 : HttpRequest :=
  { ctx := [("request.id", CtxValue.str "42")], header := [] }

theorem transport_roundtrip_decoration_witness :
    Transport.roundTrip rtOK reqID42
      = some (errNilNormalize
          (rtOK { reqID42 with
                  header := reqID42.header.add "X-Request-ID" "42" })) :=
  (transport_roundtrip_decoration rtOK reqID42 "42").2 rfl (by decide)

/-- C10: `requestID` returns the empty string when nothing is stored under
`request.id`, the stored value when it is a string, and panics (modelled by
`none`) on a non-string value, in which case `Transport.RoundTrip` panics
too. -/
theorem requestID_lookup (ctx : Ctx) (s : String) (n : Nat)
    (rt : HttpRequest → Option HttpResponse × Option Err) (h : Header) :
    (ctxValue ctx contextRequestIDKey = none → requestID ctx = some "") ∧
    (ctxValue ctx contextRequestIDKey = some (CtxValue.str s) →
      requestID ctx = some s) ∧
    (ctxValue ctx contextRequestIDKey = some (CtxValue.nonString n) →
      requestID ctx = none ∧
      Transport.roundTrip rt { ctx := ctx, header := h } = none) := by
  refine ⟨fun hv => ?_, fun hv => ?_, fun hv => ?_⟩
  · simp only [requestID, hv]
  · simp only [requestID, hv]
  · have hid : requestID ctx = none := by simp only [requestID, hv]
    refine ⟨hid, ?_⟩
    simp only [Transport.roundTrip, Transport.setRequestIDHeader, hid]

theorem requestID_lookup_witness :
    requestID [] = some "" ∧
    requestID [("request.id", CtxValue.str "42")] = some "42" ∧
    (requestID [("request.id", CtxValue.nonString 0)] = none ∧
      Transport.roundTrip rtOK
        { ctx := [("request.id", CtxValue.nonString 0)], header := [] }
        = none) :=
  ⟨(requestID_lookup [] "42" 0 rtOK []).1 rfl,
   (requestID_lookup [("request.id", CtxValue.str "42")] "42" 0 rtOK []).2.1 rfl,
   (requestID_lookup [("request.id", CtxValue.nonString 0)] "42" 0 rtOK
      []).2.2 rfl⟩

/-! ## Configuration options (httpclient.go, the With* functions) -/

/-- The transport a client ends up with, by the option that installed it:
`NewDefaultTransport` with a dial timeout, a caller-supplied
`*http.Transport` (opaque id), an `oauth2.Transport` over a
`clientcredentials.Config` (opaque id) and a default transport, or the
proxy-forwarding default transport of `WithDefaultTransportWithProxy`. -/
inductive TransportV where
  | defaultT (transportTimeout : Nat)
  | custom (transportId : Nat)
  | oauth (conf : Nat) (transportTimeout : Nat)
  | proxyT (proxyURL : String)
  deriving DecidableEq

/-- The configuration aggregate a client holds after construction: the
`HTTPClient` fields (parsed host URL, metrics sink) and the resty-client
settings the options mutate. The composed callback chain is a function value
and is modelled separately (`clientChain`). -/
structure ClientConfig where
  transport : Option TransportV := none
  timeout : Option Nat := none
  userAgent : Option String := none
  basicAuth : Option (String × String) := none
  authToken : Option String := none
  cookies : List (String × String) := []
  restyHostURL : Option String := none
  hostURL : Option URL := none
  metrics : Option MetricsSink := none
  proxyAddress : Option String := none
  retryCount : Nat := 0
  retryWaitTime : Option Nat := none
  retryMaxWaitTime : Option Nat := none
  retryConditions : List Nat := []
  deriving DecidableEq

/-- The non-callback-registering options of httpclient.go, deep-embedded.
`WithCircuitBreaker`, `WithBackoff` (and its linear/exponential forms) and
`WithChainCallback` register callbacks and are excluded, as claim C7
excludes them (their composition is `clientChain`; `WithBackoff` also sets
the resty retry count). Opaque third-party values (a caller's
`*http.Transport`, a `clientcredentials.Config`, a `Metrics` sink, resty
retry-condition functions) are identified by ids. -/
inductive OptV where
  | defaultTransport (transportTimeout : Nat)
  | customTransport (transportId : Nat)
  | oauthTransport (conf : Nat) (transportTimeout : Nat)
  | defaultTransportWithProxy (proxyURL : String)
  | timeout (t : Nat)
  | userAgent (ua : String)
  | basicAuth (username password : String)
  | authToken (token : String)
  | cookie (name value : String)
  | hostURL (baseURL : String)
  | metrics (m : MetricsSink)
  | proxy (address : String)
  | retries (count waitTime maxWaitTime : Nat)
  | retryConditions (conds : List Nat)
  deriving DecidableEq

/-- Application of one option to the client under construction, following
each `With*` body: setters overwrite, `WithCookie` and `WithRetryConditions`
append, `WithHostURL` stores `url.Parse(baseURL)` discarding the error
exactly as the source's blank identifier does (`url.Parse` is standard
library, supplied as the parameter `parse`) and hands the raw string to
resty. -/
def applyOpt (parse : String → Option URL) : OptV → ClientConfig → ClientConfig
  | .defaultTransport t, c => { c with transport := some (.defaultT t) }
  | .customTransport i, c => { c with transport := some (.custom i) }
  | .oauthTransport conf t, c => { c with transport := some (.oauth conf t) }
  | .defaultTransportWithProxy u, c => { c with transport := some (.proxyT u) }
  | .timeout t, c => { c with timeout := some t }
  | .userAgent ua, c => { c with userAgent := some ua }
  | .basicAuth u p, c => { c with basicAuth := some (u, p) }
  | .authToken tok, c => { c with authToken := some tok }
  | .cookie n v, c => { c with cookies := c.cookies ++ [(n, v)] }
  | .hostURL base, c => { c with hostURL := parse base, restyHostURL := some base }
  | .metrics m, c => { c with metrics := some m }
  | .proxy a, c => { c with proxyAddress := some a }
  | .retries n w mx, c =>
    { c with retryCount := n, retryWaitTime := some w, retryMaxWaitTime := some mx }
  | .retryConditions cs, c => { c with retryConditions := c.retryConditions ++ cs }

/-- `newClient` (httpclient.go lines 46-57) restricted to the options above:
start from the fresh resty client configuration and apply the options in
order. -/
def newClientConfig (parse : String → Option URL) (options : List OptV) :
    ClientConfig :=
  options.foldl (fun c o => applyOpt parse o c) {}

/-- The configuration aspects an option writes. -/
inductive CField where
  | transport | timeout | userAgent | basicAuth | authToken | cookies
  | hostURL | metrics | proxyAddress | retry | retryConditions
  deriving DecidableEq

/-- Aspects written by each option. `proxy` is listed as touching the
transport as well because resty v1's `SetProxy` rewires the active
transport's proxy function. -/
def touches : OptV → List CField
  | .defaultTransport _ => [.transport]
  | .customTransport _ => [.transport]
  | .oauthTransport _ _ => [.transport]
  | .defaultTransportWithProxy _ => [.transport]
  | .timeout _ => [.timeout]
  | .userAgent _ => [.userAgent]
  | .basicAuth _ _ => [.basicAuth]
  | .authToken _ => [.authToken]
  | .cookie _ _ => [.cookies]
  | .hostURL _ => [.hostURL]
  | .metrics _ => [.metrics]
  | .proxy _ => [.proxyAddress, .transport]
  | .retries _ _ _ => [.retry]
  | .retryConditions _ => [.retryConditions]

def fieldsDisjoint (a b : List CField) : Bool :=
  a.all (fun x => !(b.contains x))

/-- C7 counterexample: `WithDefaultTransport(5)` and a custom
`WithTransport` are both non-callback-registering options, yet the two
application orders produce clients with different configurations (the
transport installed last wins). -/
theorem option_order_counterexample :
    newClientConfig (fun _ => none)
        [OptV.defaultTransport 5, OptV.customTransport 0]
      ≠ newClientConfig (fun _ => none)
        [OptV.customTransport 0, OptV.defaultTransport 5] := by
  decide

/-- C7 amended: two non-callback-registering options that write disjoint
sets of configuration aspects yield the same client in either order;
options writing a common aspect (two transport-setting options, repeated
setters, cookie or retry-condition appends, proxy versus transport) take
effect in application order. -/
theorem options_disjoint_fields_commute
    (parse : String → Option URL) (o1 o2 : OptV) (c : ClientConfig)
    (h : fieldsDisjoint (touches o1) (touches o2) = true) :
    applyOpt parse o2 (applyOpt parse o1 c)
      = applyOpt parse o1 (applyOpt parse o2 c) := by
  cases o1 <;> cases o2 <;> first | rfl | simp [fieldsDisjoint, touches] at h

theorem options_disjoint_fields_commute_witness :
    applyOpt (fun _ => none) (OptV.metrics { id := 1 })
        (applyOpt (fun _ => none) (OptV.timeout 5) {})
      = applyOpt (fun _ => none) (OptV.timeout 5)
        (applyOpt (fun _ => none) (OptV.metrics { id := 1 }) {}) :=
  options_disjoint_fields_commute (fun _ => none) (OptV.timeout 5)
    (OptV.metrics { id := 1 }) {} (by decide)

/-- C9: client construction with `WithHostURL` is total for every base URL
string and every outcome of `url.Parse`: the client's host URL is exactly
the parse result (the parse error is discarded), so a failed parse degrades
it to nil, and alias derivation then falls back to the raw url. -/
theorem host_url_degrades_to_nil
    (parse : String → Option URL) (base : String) (c : ClientConfig)
    (method u : String) :
    (applyOpt parse (OptV.hostURL base) c).hostURL = parse base ∧
    (applyOpt parse (OptV.hostURL base) c).restyHostURL = some base ∧
    newClientConfig parse [OptV.hostURL base]
      = applyOpt parse (OptV.hostURL base) {} ∧
    (parse base = none →
      (applyOpt parse (OptV.hostURL base) c).hostURL = none ∧
      metricsAlias "" ((applyOpt parse (OptV.hostURL base) c).hostURL) method u
        = replaceDots u) := by
  refine ⟨rfl, rfl, rfl, fun hp => ?_⟩
  have h1 : (applyOpt parse (OptV.hostURL base) c).hostURL = none := by
    rw [show (applyOpt parse (OptV.hostURL base) c).hostURL = parse base from rfl,
      hp]
  rw [h1]
  exact ⟨rfl, rfl⟩

theorem host_url_degrades_to_nil_witness :
    (applyOpt (fun _ => none) (OptV.hostURL "::bad url::")
        ({} : ClientConfig)).hostURL = none ∧
    metricsAlias ""
        ((applyOpt (fun _ => none) (OptV.hostURL "::bad url::")
          ({} : ClientConfig)).hostURL) "GET" "/p"
      = replaceDots "/p" :=
  (host_url_degrades_to_nil (fun _ => none) "::bad url::" {} "GET" "/p").2.2.2
    rfl
